import Mathlib

/-!
Verification of the puny-http-server repository: a shallow embedding of the
message model (`app/http_request.py`, `app/http_response.py`), the router
(`app/router.py`), the handlers (`app/handlers.py`, legacy `app/main.py`), and
the per-connection error-handling cycle (`app/server.py`), together with
theorems settling the specification claims.

Conventions of the embedding:
* Python `str` values are modelled as `List Char` (`Str`); the UTF-8
  bytes/str decode step of `from_bytes` is treated as the identity at the
  text layer, and byte lengths are computed with an explicit UTF-8 encoder.
* Python `bytes` values are modelled as `List Nat` (one Nat per byte).
* Python dicts of headers are modelled as association lists with
  first-match lookup and update-in-place-or-append assignment, matching
  dict insertion-order semantics (keys are unique in every use below).
* `f"..."` messages that interpolate `!r` reprs are modelled with the raw
  interpolated string (quoting elided); no claim inspects message text.
-/

/-- Python `str` modelled as a list of characters. -/
abbrev Str := List Char

/-- Coerce a Lean string literal to the `Str` model. -/
def str (s : String) : Str := s.data

/-- The CRLF line terminator (`constants.CRLF`). -/
def CRLF : Str := str "\r\n"

/-- The ASCII whitespace characters stripped by Python `str.strip()`
(the inputs in this development are ASCII). -/
def isPySpace (c : Char) : Bool :=
  c = ' ' || c = '\t' || c = '\n' || c = '\r' || c = '\x0b' || c = '\x0c'

/-- Python `s.strip()`: drop leading and trailing whitespace. -/
def pyStrip (s : Str) : Str :=
  ((s.dropWhile isPySpace).reverse.dropWhile isPySpace).reverse

/-- Python `s.lower()` (ASCII). -/
def pyLower (s : Str) : Str := s.map Char.toLower

/-- Python `s.upper()` (ASCII). -/
def pyUpper (s : Str) : Str := s.map Char.toUpper

/-- Python `s.split(sep, 1)` for a single-character separator, returning the
two pieces around the first occurrence, or `none` when `sep` does not occur. -/
def breakOnChar (sep : Char) : Str → Option (Str × Str)
  | [] => none
  | c :: rest =>
    if c = sep then some ([], rest)
    else (breakOnChar sep rest).map (fun pr => (c :: pr.1, pr.2))

/-- Python `s.split(sep)` for a single-character separator. -/
def pySplitChar (sep : Char) : Str → List Str
  | [] => [[]]
  | c :: rest =>
    if c = sep then [] :: pySplitChar sep rest
    else
      match pySplitChar sep rest with
      | [] => [[c]]
      | h :: t => (c :: h) :: t

/-- Prepend a string onto the first piece of a split result. -/
def consHead (x : Str) : List Str → List Str
  | [] => [x]
  | h :: t => (x ++ h) :: t

/-- Python `s.split(sep)` for a two-character separator (used for
`split("\r\n")` and `split(", ")`), leftmost-first occurrences. -/
def splitOnPair (a b : Char) : Str → List Str
  | [] => [[]]
  | [c] => [[c]]
  | c :: d :: rest =>
    if c = a ∧ d = b then [] :: splitOnPair a b rest
    else consHead [c] (splitOnPair a b (d :: rest))

/-- Python `s.split("\r\n\r\n", 1)` restricted to its first occurrence:
`some (before, after)` around the first `CRLF CRLF`, else `none`. -/
def splitBody : Str → Option (Str × Str)
  | [] => none
  | c :: rest =>
    if c = '\r' ∧ ['\n', '\r', '\n'] <+: rest then
      some ([], rest.drop 3)
    else (splitBody rest).map (fun pr => (c :: pr.1, pr.2))

/-- Python `sep.join(parts)` for a single-character separator. -/
def joinChar (sep : Char) : List Str → Str
  | [] => []
  | [x] => x
  | x :: xs => x ++ [sep] ++ joinChar sep xs

/-- Join lines with CRLF (the inverse of `split("\r\n")` on clean lines). -/
def joinCRLF : List Str → Str
  | [] => []
  | [l] => l
  | l :: ls => l ++ CRLF ++ joinCRLF ls

/-- Python dict lookup `d.get(k)` on an association list. -/
def dictGet (d : List (Str × Str)) (k : Str) : Option Str :=
  match d with
  | [] => none
  | kv :: rest => if kv.1 = k then some kv.2 else dictGet rest k

/-- Python dict assignment `d[k] = v`: update the existing entry in place,
or append a new one. -/
def dictSet (d : List (Str × Str)) (k v : Str) : List (Str × Str) :=
  match d with
  | [] => [(k, v)]
  | kv :: rest => if kv.1 = k then (k, v) :: rest else kv :: dictSet rest k v

/-- Python `k in {key.lower() for key in d}`. -/
def hasKeyCI (d : List (Str × Str)) (k : Str) : Bool :=
  match d with
  | [] => false
  | kv :: rest => if pyLower kv.1 = k then true else hasKeyCI rest k

/-- Python `str(n)` for a natural number. -/
def natToStr (n : Nat) : Str := (Nat.repr n).data

/-- UTF-8 encoding of one character (byte values as `Nat`). -/
def utf8EncodeChar (c : Char) : List Nat :=
  let n := c.toNat
  if n < 0x80 then [n]
  else if n < 0x800 then [0xC0 + n / 64, 0x80 + n % 64]
  else if n < 0x10000 then
    [0xE0 + n / 4096, 0x80 + (n / 64) % 64, 0x80 + n % 64]
  else
    [0xF0 + n / 262144, 0x80 + (n / 4096) % 64, 0x80 + (n / 64) % 64,
      0x80 + n % 64]

/-- Python `s.encode('utf-8')` modelled as a byte list. -/
def utf8Encode (s : Str) : List Nat := (s.map utf8EncodeChar).flatten

/-- Decidable equality of `Except` results, for evaluating the model on
concrete inputs. -/
instance {e a : Type} [DecidableEq e] [DecidableEq a] :
    DecidableEq (Except e a) := fun x y =>
  match x, y with
  | .ok v, .ok w =>
    if h : v = w then isTrue (by rw [h]) else isFalse (by simp [h])
  | .error v, .error w =>
    if h : v = w then isTrue (by rw [h]) else isFalse (by simp [h])
  | .ok _, .error _ => isFalse (by simp)
  | .error _, .ok _ => isFalse (by simp)

/-! ### `app/constants.py` -/

/-- The `HTTPMethod` enumeration of `app/constants.py`. -/
inductive HTTPMethod where
  | GET | POST | PUT | DELETE | HEAD | OPTIONS | PATCH
deriving DecidableEq, Repr

/-- The string value of an `HTTPMethod` member (its `StrEnum` value). -/
def HTTPMethod.value : HTTPMethod → Str
  | .GET => str "GET"
  | .POST => str "POST"
  | .PUT => str "PUT"
  | .DELETE => str "DELETE"
  | .HEAD => str "HEAD"
  | .OPTIONS => str "OPTIONS"
  | .PATCH => str "PATCH"

/-- Python `HTTPMethod(s)`: the member whose value equals `s`, if any. -/
def methodFromStr (s : Str) : Option HTTPMethod :=
  if s = str "GET" then some .GET
  else if s = str "POST" then some .POST
  else if s = str "PUT" then some .PUT
  else if s = str "DELETE" then some .DELETE
  else if s = str "HEAD" then some .HEAD
  else if s = str "OPTIONS" then some .OPTIONS
  else if s = str "PATCH" then some .PATCH
  else none

/-- The `STATUS_TEXT` table of `app/constants.py`: the only seven codes with
an entry, in source order; every other status code has no entry. -/
def STATUS_TEXT (code : Nat) : Option Str :=
  if code = 200 then some (str "OK")
  else if code = 201 then some (str "Created")
  else if code = 404 then some (str "Not Found")
  else if code = 403 then some (str "Forbidden")
  else if code = 500 then some (str "Internal Server Error")
  else if code = 400 then some (str "Bad Request")
  else if code = 405 then some (str "Method Not Allowed")
  else none

/-! ### `app/exceptions.py` -/

/-- An `HTTPException` value: status code plus message (`app/exceptions.py`).
Every exception raised by the parser is a `HTTPBadRequestError` (status 400)
with an explicit message. -/
structure HTTPException where
  status : Nat
  message : Str
deriving DecidableEq, Repr

/-! ### `app/http_request.py` -/

/-- A parsed HTTP request (`HTTPRequest.__init__`): header keys are stored
lower-cased by the parser. -/
structure HTTPRequest where
  method : HTTPMethod
  path : Str
  protocol : Str
  headers : List (Str × Str)
  body : Str
deriving DecidableEq, Repr

/-- The header loop of `HTTPRequest.from_bytes`: for each line, stop at an
empty line, require a colon, split at the first colon, strip both pieces,
lower-case the key, and assign into the header dict. -/
def parseHeaderLines : List Str → List (Str × Str) →
    Except HTTPException (List (Str × Str))
  | [], acc => .ok acc
  | l :: rest, acc =>
    if l = [] then .ok acc
    else
      match breakOnChar ':' l with
      | some (k, v) =>
        parseHeaderLines rest (dictSet acc (pyLower (pyStrip k)) (pyStrip v))
      | none => .error ⟨400, str "Malformed header line: " ++ l⟩

/-- `HTTPRequest.from_bytes` at the text layer: split off the body at the
first blank line, split the header section into CRLF lines, split the start
line with `split(" ", 2)` (so at most two splits are made and any further
spaces stay inside the protocol token), match the upper-cased method against
the enumeration, then parse the header lines. -/
def from_bytes (raw : Str) : Except HTTPException HTTPRequest :=
  let split := match splitBody raw with
    | some (h, b) => (h, b)
    | none => (raw, [])
  match splitOnPair '\r' '\n' split.1 with
  | [] => .error ⟨400, str "Empty request"⟩
  | startLine :: rest =>
    match breakOnChar ' ' startLine with
    | none => .error ⟨400, str "Malformed start line: " ++ startLine⟩
    | some (mstr, r1) =>
      match breakOnChar ' ' r1 with
      | none => .error ⟨400, str "Malformed start line: " ++ startLine⟩
      | some (path, protocol) =>
        match methodFromStr (pyUpper mstr) with
        | none => .error ⟨400, str "Unsupported HTTP method: " ++ mstr⟩
        | some m =>
          match parseHeaderLines rest [] with
          | .error e => .error e
          | .ok hs => .ok ⟨m, path, protocol, hs, split.2⟩

/-- `HTTPRequest.get_header`: case-insensitive lookup with default. -/
def get_header (req : HTTPRequest) (name : Str) (dflt : Str) : Str :=
  (dictGet req.headers (pyLower name)).getD dflt

/-- `HTTPRequest.should_close_connection`: the Connection header value,
lower-cased, equals "close". -/
def should_close (req : HTTPRequest) : Bool :=
  pyLower (get_header req (str "Connection") []) = str "close"

/-! ### `app/http_response.py` -/

/-- The body slot of a response: `None`, a `str`, or `bytes`. -/
inductive RespBody where
  | noBody
  | ofStr (s : Str)
  | ofBytes (b : List Nat)
deriving DecidableEq, Repr

/-- `HTTPResponse._encode_body`: `None` becomes `b""`, `bytes` pass through,
`str` is UTF-8 encoded (the inputs here never hit the replace fallback). -/
def encodeBody : RespBody → List Nat
  | .noBody => []
  | .ofBytes b => b
  | .ofStr s => utf8Encode s

/-- A constructed `HTTPResponse` value. -/
structure HTTPResponse where
  status_code : Nat
  status_text : Str
  headers : List (Str × Str)
  body : RespBody
deriving DecidableEq, Repr

/-- `HTTPResponse.__init__`: status text from the caller when truthy, else
from `STATUS_TEXT` with fallback "Unknown"; headers default to `{}`; if a
body is present and no header key lower-cases to "content-length", inject
`Content-Length` equal to the encoded body's byte length. -/
def mkHTTPResponse (status_code : Nat) (headers : Option (List (Str × Str)))
    (body : RespBody) (status_text : Option Str) : HTTPResponse :=
  let stext := match status_text with
    | some t => if t = [] then (STATUS_TEXT status_code).getD (str "Unknown") else t
    | none => (STATUS_TEXT status_code).getD (str "Unknown")
  let hs := headers.getD []
  let hs' :=
    if body ≠ RespBody.noBody ∧ hasKeyCI hs (str "content-length") = false then
      dictSet hs (str "Content-Length") (natToStr (encodeBody body).length)
    else hs
  ⟨status_code, stext, hs', body⟩

/-- The status line and header block of `HTTPResponse.to_bytes` (everything
before the body), including the `Connection: close` header added when the
connection is closing. -/
def toBytesHead (r : HTTPResponse) (close : Bool) : List Nat :=
  let hs := if close then dictSet r.headers (str "Connection") (str "close")
            else r.headers
  let line := str "HTTP/1.1 " ++ natToStr r.status_code ++ str " " ++
    r.status_text ++ CRLF
  let headerBlock := (hs.map (fun kv => kv.1 ++ str ": " ++ kv.2 ++ CRLF)).flatten
  utf8Encode (line ++ headerBlock ++ CRLF)

/-- `HTTPResponse.to_bytes`: status line, headers, blank line, then the
encoded body when it is non-empty (`if self._encoded_body:`). -/
def HTTPResponse.to_bytes (r : HTTPResponse) (close : Bool) : List Nat :=
  toBytesHead r close ++
    (if encodeBody r.body = [] then [] else encodeBody r.body)

/-! ### POSIX path functions (`os.path` as used by `app/handlers.py`) -/

/-- `posixpath.join(a, b)`: absolute `b` replaces `a`; otherwise concatenate,
inserting a slash unless `a` is empty or already ends with one. -/
def pyJoin (a b : Str) : Str :=
  if (str "/").isPrefixOf b then b
  else if a = [] ∨ (str "/").isSuffixOf a then a ++ b
  else a ++ str "/" ++ b

/-- One step of the `posixpath.normpath` component loop. -/
def normpathStep (initialSlashes : Nat) (acc : List Str) (comp : Str) :
    List Str :=
  if comp = [] ∨ comp = str "." then acc
  else if comp ≠ str ".." ∨ (initialSlashes = 0 ∧ acc = []) ∨
      (acc ≠ [] ∧ acc.getLast? = some (str "..")) then acc ++ [comp]
  else if acc ≠ [] then acc.dropLast
  else acc

/-- `posixpath.normpath`: collapse slashes and `.` components and resolve
`..` components, preserving the POSIX double-initial-slash special case. -/
def pyNormpath (p : Str) : Str :=
  if p = [] then str "."
  else
    let initialSlashes : Nat :=
      if (str "/").isPrefixOf p then
        if (str "//").isPrefixOf p ∧ ¬ (str "///").isPrefixOf p then 2 else 1
      else 0
    let comps := pySplitChar '/' p
    let newComps := comps.foldl (normpathStep initialSlashes) []
    let joined := List.replicate initialSlashes '/' ++ joinChar '/' newComps
    if joined = [] then str "." else joined

/-- `posixpath.abspath` with an explicit working directory: join onto `cwd`
when the path is relative, then normalise. -/
def pyAbspath (cwd p : Str) : Str :=
  if (str "/").isPrefixOf p then pyNormpath p
  else pyNormpath (pyJoin cwd p)

/-! ### `app/handlers.py` -/

/-- The shared front of `handle_file_get` (lines 43-52) and
`handle_file_post` (lines 73-82): fail 500 when no directory is configured,
take the request path after "/files/", resolve it with
`os.path.abspath(os.path.join(directory, relative))`, and fail 403 unless the
resolved string starts with `os.path.abspath(directory)`; otherwise hand the
resolved path on to the filesystem steps. -/
def filePathCheck (cwd : Str) (directory : Option Str) (reqPath : Str) :
    Except HTTPException Str :=
  match directory with
  | none => .error ⟨500, str "File directory not configured on server."⟩
  | some dir =>
    if dir = [] then .error ⟨500, str "File directory not configured on server."⟩
    else
      let rel := reqPath.drop (str "/files/").length
      let full := pyAbspath cwd (pyJoin dir rel)
      if ¬ (pyAbspath cwd dir).isPrefixOf full then
        .error ⟨403, str "Access denied to file path."⟩
      else .ok full

/-- `handle_echo` of `app/handlers.py`, parameterised by the `gzip.compress`
function: take the path after "/echo/", encode it, and if "gzip" is among
the comma-separated whitespace-stripped Accept-Encoding tokens, compress the
body and add `Content-Encoding: gzip` before constructing the response. -/
def handle_echo (compress : List Nat → List Nat) (req : HTTPRequest) :
    HTTPResponse :=
  let echoStr := req.path.drop (str "/echo/").length
  let body0 := utf8Encode echoStr
  let headers := [(str "Content-Type", str "text/plain")]
  let accept := get_header req (str "Accept-Encoding") []
  if str "gzip" ∈ (pySplitChar ',' accept).map pyStrip then
    mkHTTPResponse 200
      (some (dictSet headers (str "Content-Encoding") (str "gzip")))
      (.ofBytes (compress body0)) none
  else
    mkHTTPResponse 200 (some headers) (.ofBytes body0) none

/-! ### legacy `app/main.py` -/

/-- `handle_echo` of `app/main.py`, parameterised by `gzip.compress`. Its
header dict is not case-normalised, the Accept-Encoding value is split on the
exact two-character separator ", " (no stripping), and the handler returns
the `(status, text, headers, body)` tuple it passes to `build_response`. -/
def main_handle_echo (compress : List Nat → List Nat) (path : Str)
    (headers : List (Str × Str)) : Nat × Str × List (Str × Str) × List Nat :=
  let s := path.drop (str "/echo/").length
  let contentEncodings := match dictGet headers (str "Accept-Encoding") with
    | some v => if v = [] then [] else splitOnPair ',' ' ' v
    | none => []
  let body0 := utf8Encode s
  let withGzip := str "gzip" ∈ contentEncodings
  let body1 := if withGzip then compress body0 else body0
  let rh0 : List (Str × Str) :=
    if withGzip then [(str "Content-Encoding", str "gzip")] else []
  let rh := dictSet (dictSet rh0 (str "Content-Type") (str "text/plain"))
    (str "Content-Length") (natToStr body1.length)
  (200, str "OK", rh, body1)

/-! ### `app/router.py` -/

/-- A registered route: method value, compiled whole-path pattern (modelled
as its match predicate), and handler reference. -/
structure Route (H : Type) where
  method : Str
  pattern : Str → Bool
  handler : H

/-- Insert into the accumulating Python `set` of allowed method values. -/
def setAdd (l : List Str) (x : Str) : List Str :=
  if x ∈ l then l else l ++ [x]

/-- Lexicographic order on strings by code point (Python `str` ordering). -/
def strLe (a b : Str) : Bool :=
  match a, b with
  | [], _ => true
  | _ :: _, [] => false
  | c :: as_, d :: bs => if c = d then strLe as_ bs else decide (c < d)

/-- Insertion into a sorted list of strings. -/
def insertSorted (x : Str) : List Str → List Str
  | [] => [x]
  | y :: ys => if strLe x y then x :: y :: ys else y :: insertSorted x ys

/-- Python `sorted` on a collection of strings. -/
def sortStr (l : List Str) : List Str := l.foldr insertSorted []

/-- The scan loop of `Router.find_handler`: in registration order, record the
method of every route whose pattern matches the path, return the handler of
the first route whose pattern and method both match, and on completion raise
Method-Not-Allowed with the sorted accumulated set when some pattern matched,
else return the default handler. -/
def findHandlerAux {H : Type} (m p : Str) (dflt : H) :
    List (Route H) → List Str → Bool → Except (List Str) H
  | [], allowed, pathMatched =>
    if pathMatched then .error (sortStr allowed) else .ok dflt
  | r :: rest, allowed, pathMatched =>
    if r.pattern p then
      if m = r.method then .ok r.handler
      else findHandlerAux m p dflt rest (setAdd allowed r.method) true
    else findHandlerAux m p dflt rest allowed pathMatched

/-- `Router.find_handler` on a route table, request method value and path;
`.error` carries the sorted allowed-methods set of the 405 condition. -/
def find_handler {H : Type} (routes : List (Route H)) (dflt : H)
    (m p : Str) : Except (List Str) H :=
  findHandlerAux m p dflt routes [] false

/-! ### `app/server.py` -/

/-- The outcome of routing-plus-handler execution for one request, as seen by
the `except` clauses of `HTTPServer._handle_client_connection`: a response, a
raised `HTTPException`, or an unexpected (non-HTTP) exception. -/
inductive DispatchOutcome where
  | success (resp : HTTPResponse)
  | httpError (e : HTTPException)
  | unexpected

/-- One iteration of the keep-alive loop of
`HTTPServer._handle_client_connection` (lines 50-99) for an in-protocol
request, abstracted over routing/handler execution: `close_connection` starts
false, parsing failures reach the `HTTPException` arm before
`request.should_close_connection` is consulted, HTTP errors OR the close flag
with `status >= 500`, and unexpected errors produce a 500 and always close. -/
def connectionCycle (raw : Str) (dispatch : HTTPRequest → DispatchOutcome) :
    HTTPResponse × Bool :=
  match from_bytes raw with
  | .error e =>
    (mkHTTPResponse e.status none (.ofStr e.message) none,
      decide (500 ≤ e.status))
  | .ok req =>
    let close0 := should_close req
    match dispatch req with
    | .success resp => (resp, close0)
    | .httpError e =>
      (mkHTTPResponse e.status none (.ofStr e.message) none,
        close0 || decide (500 ≤ e.status))
    | .unexpected =>
      (mkHTTPResponse 500 none (.ofStr (str "Internal Server Error")) none,
        true)

/-! ### Request wire form (spec section 6) -/

/-- One header line of the wire format: `Name: value`. -/
def headerLine (kv : Str × Str) : Str := kv.1 ++ str ": " ++ kv.2

/-- The wire-byte form of a request at the text layer: start line and header
lines joined by CRLF, a blank line, then the body. -/
def encodeRequest (m : HTTPMethod) (path proto : Str)
    (hs : List (Str × Str)) (body : Str) : Str :=
  joinCRLF ((m.value ++ [' '] ++ path ++ [' '] ++ proto) :: hs.map headerLine)
    ++ CRLF ++ CRLF ++ body

/-! ### Helper lemmas: header dictionaries -/

theorem dictGet_dictSet_self (d : List (Str × Str)) (k v : Str) :
    dictGet (dictSet d k v) k = some v := by
  induction d with
  | nil => simp [dictSet, dictGet]
  | cons kv rest ih =>
    by_cases h : kv.1 = k
    · simp [dictSet, dictGet, h]
    · simp [dictSet, dictGet, h, ih]

theorem dictGet_dictSet_ne (d : List (Str × Str)) (k v k' : Str)
    (h : k' ≠ k) : dictGet (dictSet d k v) k' = dictGet d k' := by
  induction d with
  | nil => simp [dictSet, dictGet, h, Ne.symm h]
  | cons kv rest ih =>
    by_cases hk : kv.1 = k
    · simp [dictSet, dictGet, hk, h, Ne.symm h]
    · simp [dictSet, dictGet, hk, ih]

theorem dictSet_fresh (d : List (Str × Str)) (k v : Str)
    (h : ∀ e ∈ d, e.1 ≠ k) : dictSet d k v = d ++ [(k, v)] := by
  induction d with
  | nil => simp [dictSet]
  | cons kv rest ih =>
    have h1 : kv.1 ≠ k := h kv (by simp)
    simp [dictSet, h1]
    exact ih (fun e he => h e (by simp [he]))

/-- Body and status code of a constructed response are the constructor
arguments. -/
theorem mkHTTPResponse_body (c : Nat) (h : Option (List (Str × Str)))
    (b : RespBody) (t : Option Str) : (mkHTTPResponse c h b t).body = b := rfl

/-- `HTTPResponse.__init__` injects `Content-Length` equal to the encoded
body byte length whenever a body is present and no header key lower-cases to
"content-length". -/
theorem mk_injects_CL (c : Nat) (headers : Option (List (Str × Str)))
    (b : RespBody) (t : Option Str) (hb : b ≠ RespBody.noBody)
    (hck : hasKeyCI (headers.getD []) (str "content-length") = false) :
    dictGet (mkHTTPResponse c headers b t).headers (str "Content-Length") =
      some (natToStr (encodeBody b).length) := by
  unfold mkHTTPResponse
  simp only [if_pos (And.intro hb hck)]
  exact dictGet_dictSet_self _ _ _

/-- Lookups at other keys are unaffected by the `Content-Length`
injection. -/
theorem mk_other_header (c : Nat) (headers : List (Str × Str))
    (b : RespBody) (t : Option Str) (k : Str)
    (hk : k ≠ str "Content-Length") :
    dictGet (mkHTTPResponse c (some headers) b t).headers k =
      dictGet headers k := by
  unfold mkHTTPResponse
  by_cases hcond : b ≠ RespBody.noBody ∧
      hasKeyCI headers (str "content-length") = false
  · simp only [Option.getD_some, if_pos hcond]
    exact dictGet_dictSet_ne _ _ _ _ hk
  · simp only [Option.getD_some, if_neg hcond]

/-! ### Helper lemmas: splitting -/

theorem breakOnChar_not_mem (c : Char) (x : Str) (h : c ∉ x) :
    breakOnChar c x = none := by
  induction x with
  | nil => rfl
  | cons a rest ih =>
    have ha : a ≠ c := fun he => h (he ▸ List.mem_cons_self a rest)
    have hr : c ∉ rest := fun hm => h (List.mem_cons_of_mem a hm)
    simp [breakOnChar, if_neg ha, ih hr]

theorem breakOnChar_append (c : Char) (x z : Str) (h : c ∉ x) :
    breakOnChar c (x ++ c :: z) = some (x, z) := by
  induction x with
  | nil => simp [breakOnChar]
  | cons a rest ih =>
    have ha : a ≠ c := fun he => h (he ▸ List.mem_cons_self a rest)
    have hr : c ∉ rest := fun hm => h (List.mem_cons_of_mem a hm)
    simp [breakOnChar, if_neg ha, ih hr]

theorem splitBody_cons_ne (a : Char) (w : Str)
    (ha : ¬(a = '\r' ∧ ['\n', '\r', '\n'] <+: w)) :
    splitBody (a :: w) = (splitBody w).map (fun pr => (a :: pr.1, pr.2)) := by
  simp only [splitBody]
  exact if_neg ha

theorem splitBody_crlfcrlf (z : Str) :
    splitBody ('\r' :: '\n' :: '\r' :: '\n' :: z) = some ([], z) := by
  have hp : ['\n', '\r', '\n'] <+: ('\n' :: '\r' :: '\n' :: z) := ⟨z, rfl⟩
  simp [splitBody, hp]

theorem splitBody_walk (x z : Str) (h : '\r' ∉ x) :
    splitBody (x ++ z) = (splitBody z).map (fun pr => (x ++ pr.1, pr.2)) := by
  induction x with
  | nil =>
    cases hz : splitBody z <;> simp [hz]
  | cons a rest ih =>
    have ha : ¬(a = '\r' ∧ ['\n', '\r', '\n'] <+: (rest ++ z)) := by
      rintro ⟨he, -⟩
      exact h (he ▸ List.mem_cons_self a rest)
    have hr : '\r' ∉ rest := fun hm => h (List.mem_cons_of_mem a hm)
    rw [List.cons_append, splitBody_cons_ne a _ ha, ih hr]
    cases hz : splitBody z <;> simp [hz]

/-- Splitting off the body after a CRLF-joined header section of non-empty
CR-free lines finds exactly the final blank line. -/
theorem splitBody_header (lines : List Str) (z : Str) (hne : lines ≠ [])
    (hok : ∀ l ∈ lines, '\r' ∉ l ∧ l ≠ []) :
    splitBody (joinCRLF lines ++ '\r' :: '\n' :: '\r' :: '\n' :: z) =
      some (joinCRLF lines, z) := by
  induction lines with
  | nil => exact absurd rfl hne
  | cons l ls ih =>
    have hl := hok l (by simp)
    cases ls with
    | nil =>
      simp only [joinCRLF]
      rw [splitBody_walk l _ hl.1, splitBody_crlfcrlf]
      simp
    | cons l2 ls2 =>
      obtain ⟨t, ht⟩ : ∃ t, joinCRLF (l2 :: ls2) = l2 ++ t := by
        cases ls2 with
        | nil => exact ⟨[], by simp [joinCRLF]⟩
        | cons l3 ls3 => exact ⟨CRLF ++ joinCRLF (l3 :: ls3), by simp [joinCRLF]⟩
      have hl2 := hok l2 (by simp)
      obtain ⟨c2, l2', hc2⟩ : ∃ c2 l2', l2 = c2 :: l2' := by
        cases l2 with
        | nil => exact absurd rfl hl2.2
        | cons c2 l2' => exact ⟨c2, l2', rfl⟩
      have hc2r : c2 ≠ '\r' := fun he => hl2.1 (he ▸ (hc2 ▸ List.mem_cons_self c2 l2'))
      have step : joinCRLF (l :: l2 :: ls2) = l ++ (CRLF ++ joinCRLF (l2 :: ls2)) := by
        simp [joinCRLF]
      rw [step, List.append_assoc, splitBody_walk l _ hl.1]
      have hshape : (CRLF ++ joinCRLF (l2 :: ls2)) ++ '\r' :: '\n' :: '\r' :: '\n' :: z =
          '\r' :: '\n' :: (joinCRLF (l2 :: ls2) ++ '\r' :: '\n' :: '\r' :: '\n' :: z) := by
        simp [CRLF, str]
      have hnotpref : ¬('\r' = '\r' ∧ ['\n', '\r', '\n'] <+:
          ('\n' :: (joinCRLF (l2 :: ls2) ++ '\r' :: '\n' :: '\r' :: '\n' :: z))) := by
        rintro ⟨-, t', hp⟩
        rw [ht, hc2] at hp
        simp at hp
        exact hc2r hp.1.symm
      have hnot2 : ¬('\n' = '\r' ∧ ['\n', '\r', '\n'] <+:
          (joinCRLF (l2 :: ls2) ++ '\r' :: '\n' :: '\r' :: '\n' :: z)) := by
        rintro ⟨hp, -⟩
        exact absurd hp (by decide)
      rw [hshape, splitBody_cons_ne _ _ hnotpref, splitBody_cons_ne _ _ hnot2,
        ih (by simp) (fun l' hl' => hok l' (by simp [hl']))]
      simp [CRLF, str]

theorem splitOnPair_cons_step (a b c d : Char) (w : Str)
    (h : ¬(c = a ∧ d = b)) :
    splitOnPair a b (c :: d :: w) = consHead [c] (splitOnPair a b (d :: w)) := by
  simp only [splitOnPair, if_neg h]

theorem splitOnPair_ne_nil (a b : Char) (s : Str) : splitOnPair a b s ≠ [] := by
  cases s with
  | nil => simp [splitOnPair]
  | cons c rest =>
    cases rest with
    | nil => simp [splitOnPair]
    | cons d w =>
      by_cases h : c = a ∧ d = b
      · simp only [splitOnPair, if_pos h]
        simp
      · simp only [splitOnPair, if_neg h]
        cases hl : splitOnPair a b (d :: w) <;> simp [consHead]

theorem consHead_consHead (x y : Str) (l : List Str) :
    consHead x (consHead y l) = consHead (x ++ y) l := by
  cases l <;> simp [consHead]

theorem splitOnPair_pair (a b : Char) (w : Str) :
    splitOnPair a b (a :: b :: w) = [] :: splitOnPair a b w := by
  simp [splitOnPair]

theorem splitOnPair_walk (a b : Char) (x z : Str) (h : a ∉ x) :
    splitOnPair a b (x ++ z) = consHead x (splitOnPair a b z) := by
  induction x with
  | nil =>
    cases hl : splitOnPair a b z with
    | nil => exact absurd hl (splitOnPair_ne_nil a b z)
    | cons hh tt => simp [consHead, hl]
  | cons c x' ih =>
    have hc : c ≠ a := fun he => h (he ▸ List.mem_cons_self c x')
    have hx' : a ∉ x' := fun hm => h (List.mem_cons_of_mem c hm)
    cases hxz : x' ++ z with
    | nil =>
      obtain ⟨hx'e, hze⟩ := List.append_eq_nil.mp hxz
      subst hx'e; subst hze
      simp [splitOnPair, consHead]
    | cons d w =>
      have hstep : ¬(c = a ∧ d = b) := fun hcd => hc hcd.1
      rw [List.cons_append, hxz, splitOnPair_cons_step a b c d w hstep, ← hxz,
        ih hx', consHead_consHead]
      simp

/-- `split("\r\n")` is a left inverse of joining CR-free lines with CRLF. -/
theorem splitCRLF_join (lines : List Str) (hne : lines ≠ [])
    (hok : ∀ l ∈ lines, '\r' ∉ l) :
    splitOnPair '\r' '\n' (joinCRLF lines) = lines := by
  induction lines with
  | nil => exact absurd rfl hne
  | cons l ls ih =>
    cases ls with
    | nil =>
      have hl : joinCRLF [l] = l ++ [] := by simp [joinCRLF]
      rw [hl, splitOnPair_walk _ _ _ _ (hok l (by simp))]
      simp [splitOnPair, consHead]
    | cons l2 ls2 =>
      have hj : joinCRLF (l :: l2 :: ls2) =
          l ++ ('\r' :: '\n' :: joinCRLF (l2 :: ls2)) := by
        simp [joinCRLF, CRLF, str]
      rw [hj, splitOnPair_walk _ _ _ _ (hok l (by simp)), splitOnPair_pair,
        ih (by simp) (fun l' hl' => hok l' (by simp [hl']))]
      simp [consHead]

/-! ### Helper lemmas: header parsing -/

theorem pyStrip_space_cons (v : Str) : pyStrip (' ' :: v) = pyStrip v := by
  have hsp : isPySpace ' ' = true := by decide
  simp [pyStrip, List.dropWhile_cons, hsp]

/-- `from_bytes`-side parsing of encoded well-formed header lines: keys come
back lower-cased, values unchanged. -/
theorem parseHeaderLines_encoded (hs : List (Str × Str)) :
    ∀ acc : List (Str × Str),
    (∀ kv ∈ hs, ':' ∉ kv.1 ∧ pyStrip kv.1 = kv.1 ∧ pyStrip kv.2 = kv.2) →
    (hs.map (fun kv => pyLower kv.1)).Nodup →
    (∀ kv ∈ hs, ∀ e ∈ acc, e.1 ≠ pyLower kv.1) →
    parseHeaderLines (hs.map headerLine) acc =
      .ok (acc ++ hs.map (fun kv => (pyLower kv.1, kv.2))) := by
  induction hs with
  | nil =>
    intro acc _ _ _
    simp [parseHeaderLines]
  | cons kv hs' ih =>
    intro acc hwf hnd hdisj
    have hkv := hwf kv (by simp)
    have hline_ne : ¬(headerLine kv = []) := by
      simp [headerLine, str]
    have hbreak : breakOnChar ':' (headerLine kv) = some (kv.1, ' ' :: kv.2) := by
      have hshape : headerLine kv = kv.1 ++ ':' :: ' ' :: kv.2 := by
        simp [headerLine, str]
      rw [hshape]
      exact breakOnChar_append ':' kv.1 (' ' :: kv.2) hkv.1
    have hfresh : ∀ e ∈ acc, e.1 ≠ pyLower kv.1 :=
      fun e he => hdisj kv (by simp) e he
    have hset : dictSet acc (pyLower (pyStrip kv.1)) (pyStrip (' ' :: kv.2)) =
        acc ++ [(pyLower kv.1, kv.2)] := by
      rw [pyStrip_space_cons, hkv.2.1, hkv.2.2]
      exact dictSet_fresh acc (pyLower kv.1) kv.2 hfresh
    have hnotmem : pyLower kv.1 ∉ hs'.map (fun kv => pyLower kv.1) :=
      (List.nodup_cons.mp hnd).1
    have hrec := ih (acc ++ [(pyLower kv.1, kv.2)])
      (fun kv' h' => hwf kv' (by simp [h']))
      (List.nodup_cons.mp hnd).2
      (by
        intro kv' hkv' e he
        rcases List.mem_append.mp he with hacc | hsingle
        · exact hdisj kv' (by simp [hkv']) e hacc
        · have he1 : e = (pyLower kv.1, kv.2) := by simpa using hsingle
          rw [he1]
          intro hcontra
          have hmem : pyLower kv'.1 ∈ hs'.map (fun kv => pyLower kv.1) :=
            List.mem_map_of_mem (fun kv => pyLower kv.1) hkv'
          have heq : pyLower kv.1 = pyLower kv'.1 := hcontra
          exact hnotmem (heq ▸ hmem))
    simp only [List.map_cons, parseHeaderLines, if_neg hline_ne, hbreak, hset, hrec]
    simp

theorem method_value_facts (m : HTTPMethod) :
    ' ' ∉ m.value ∧ '\r' ∉ m.value ∧ m.value ≠ [] ∧
      methodFromStr (pyUpper m.value) = some m := by
  cases m <;> decide

/-- Decoding the wire form of a well-formed request reproduces its parts:
the shared round-trip engine behind the claims about `from_bytes`. -/
theorem from_bytes_encodeRequest (m : HTTPMethod) (p proto : Str) (hs : List (Str × Str))
    (body : Str) (hpsp : ' ' ∉ p) (hpcr : '\r' ∉ p) (hprcr : '\r' ∉ proto)
    (hwf : ∀ kv ∈ hs, ':' ∉ kv.1 ∧ '\r' ∉ kv.1 ∧ '\r' ∉ kv.2 ∧
      pyStrip kv.1 = kv.1 ∧ pyStrip kv.2 = kv.2)
    (hnd : (hs.map (fun kv => pyLower kv.1)).Nodup) :
    from_bytes (encodeRequest m p proto hs body) =
      .ok ⟨m, p, proto, hs.map (fun kv => (pyLower kv.1, kv.2)), body⟩ := by
  have hm := method_value_facts m
  have hslcr : '\r' ∉ m.value ++ [' '] ++ p ++ [' '] ++ proto := by
    intro hcr
    rcases List.mem_append.mp hcr with h4 | h5
    · rcases List.mem_append.mp h4 with h3 | h3'
      · rcases List.mem_append.mp h3 with h2 | h2'
        · rcases List.mem_append.mp h2 with h1 | h1'
          · exact hm.2.1 h1
          · have hsp : '\r' = ' ' := by simpa using h1'
            exact absurd hsp (by decide)
        · exact hpcr h2'
      · have hsp : '\r' = ' ' := by simpa using h3'
        exact absurd hsp (by decide)
    · exact hprcr h5
  have hslne : m.value ++ [' '] ++ p ++ [' '] ++ proto ≠ [] := by
    intro he
    have hlen := congrArg List.length he
    simp at hlen
  have hhl : ∀ kv ∈ hs, '\r' ∉ headerLine kv ∧ headerLine kv ≠ [] := by
    intro kv hkv
    obtain ⟨h1, h2, h3, -, -⟩ := hwf kv hkv
    constructor
    · intro hcr
      rw [show headerLine kv = kv.1 ++ ':' :: ' ' :: kv.2 from by
        simp [headerLine, str]] at hcr
      rcases List.mem_append.mp hcr with ha | hb
      · exact h2 ha
      · rcases (by simpa using hb : '\r' = ':' ∨ '\r' = ' ' ∨ '\r' ∈ kv.2) with
          hb1 | hb2 | hb3
        · exact absurd hb1 (by decide)
        · exact absurd hb2 (by decide)
        · exact h3 hb3
    · simp [headerLine, str]
  have hlinesok : ∀ l ∈ (m.value ++ [' '] ++ p ++ [' '] ++ proto) ::
      hs.map headerLine, '\r' ∉ l ∧ l ≠ [] := by
    intro l hl
    rcases List.mem_cons.mp hl with he | hmem
    · exact he ▸ ⟨hslcr, hslne⟩
    · obtain ⟨kv, hkv, hkveq⟩ := List.mem_map.mp hmem
      exact hkveq ▸ hhl kv hkv
  have henc : encodeRequest m p proto hs body =
      joinCRLF ((m.value ++ [' '] ++ p ++ [' '] ++ proto) :: hs.map headerLine)
        ++ '\r' :: '\n' :: '\r' :: '\n' :: body := by
    simp [encodeRequest, CRLF, str, List.append_assoc]
  have hsb : splitBody (encodeRequest m p proto hs body) =
      some (joinCRLF ((m.value ++ [' '] ++ p ++ [' '] ++ proto) ::
        hs.map headerLine), body) := by
    rw [henc]
    exact splitBody_header _ body (by simp) hlinesok
  have hcrlf : splitOnPair '\r' '\n'
      (joinCRLF ((m.value ++ [' '] ++ p ++ [' '] ++ proto) ::
        hs.map headerLine)) =
      (m.value ++ [' '] ++ p ++ [' '] ++ proto) :: hs.map headerLine :=
    splitCRLF_join _ (by simp) (fun l hl => (hlinesok l hl).1)
  have hb1 : breakOnChar ' ' (m.value ++ [' '] ++ p ++ [' '] ++ proto) =
      some (m.value, p ++ ' ' :: proto) := by
    rw [show m.value ++ [' '] ++ p ++ [' '] ++ proto
        = m.value ++ ' ' :: (p ++ ' ' :: proto) from by simp [List.append_assoc]]
    exact breakOnChar_append ' ' m.value _ hm.1
  have hb2 : breakOnChar ' ' (p ++ ' ' :: proto) = some (p, proto) :=
    breakOnChar_append ' ' p proto hpsp
  have hph : parseHeaderLines (hs.map headerLine) [] =
      .ok (hs.map (fun kv => (pyLower kv.1, kv.2))) := by
    have := parseHeaderLines_encoded hs []
      (fun kv h => ⟨(hwf kv h).1, (hwf kv h).2.2.2.1, (hwf kv h).2.2.2.2⟩)
      hnd (by simp)
    simpa using this
  simp only [from_bytes, hsb, hcrlf, hb1, hb2, hm.2.2.2, hph]

/-- Claim C8: for every Request assembled from a well-formed start line,
well-formed header lines, and an optional body, encoding it to its wire-byte
form and decoding those bytes with `HTTPRequest.from_bytes` reproduces the
same method, the same path, and the same header mapping, where header keys
are compared case-insensitively (the decoded keys are the lower-cased
originals and the values are unchanged). -/
theorem claim_C8 (m : HTTPMethod) (p proto : Str) (hs : List (Str × Str))
    (body : Str) (hpsp : ' ' ∉ p) (hpcr : '\r' ∉ p) (hprcr : '\r' ∉ proto)
    (hwf : ∀ kv ∈ hs, ':' ∉ kv.1 ∧ '\r' ∉ kv.1 ∧ '\r' ∉ kv.2 ∧
      pyStrip kv.1 = kv.1 ∧ pyStrip kv.2 = kv.2)
    (hnd : (hs.map (fun kv => pyLower kv.1)).Nodup) :
    from_bytes (encodeRequest m p proto hs body) =
      .ok ⟨m, p, proto, hs.map (fun kv => (pyLower kv.1, kv.2)), body⟩ :=
  from_bytes_encodeRequest m p proto hs body hpsp hpcr hprcr hwf hnd

/-- Witness for claim C8 at a concrete request. -/
theorem claim_C8_witness :
    from_bytes (encodeRequest .GET (str "/index.html") (str "HTTP/1.1")
      [(str "Host", str "localhost"), (str "User-Agent", str "test-client/1.0")]
      (str "hello")) =
      .ok ⟨.GET, str "/index.html", str "HTTP/1.1",
        [(str "host", str "localhost"),
          (str "user-agent", str "test-client/1.0")], str "hello"⟩ :=
  claim_C8 .GET (str "/index.html") (str "HTTP/1.1")
    [(str "Host", str "localhost"), (str "User-Agent", str "test-client/1.0")]
    (str "hello") (by decide) (by decide) (by decide) (by decide) (by decide)

/-- Counterexample to claim C6: a start line of four space-separated tokens
is accepted by `from_bytes` (the extra token is folded into the protocol by
`split(" ", 2)`), not rejected with BadRequest. -/
theorem claim_C6_counterexample :
    (pySplitChar ' ' (str "GET / HTTP/1.1 extra")).length = 4 ∧
    from_bytes (str "GET / HTTP/1.1 extra\r\n\r\n") =
      .ok ⟨.GET, str "/", str "HTTP/1.1 extra", [], []⟩ := by
  decide

/-- Claim C6 as amended: `from_bytes` splits the start line with
`split(" ", 2)`, so it raises BadRequest exactly when the start line has
fewer than three space-separated tokens (fewer than two spaces); a start
line with two or more spaces is accepted, with everything after the second
space — further spaces included — kept as the protocol token. -/
theorem claim_C6 :
    (∀ tok : Str, '\r' ∉ tok → ' ' ∉ tok →
      from_bytes (tok ++ '\r' :: '\n' :: '\r' :: '\n' :: []) =
        .error ⟨400, str "Malformed start line: " ++ tok⟩)
  ∧ (∀ t1 t2 : Str, '\r' ∉ t1 → ' ' ∉ t1 → '\r' ∉ t2 → ' ' ∉ t2 →
      from_bytes (t1 ++ ' ' :: t2 ++ '\r' :: '\n' :: '\r' :: '\n' :: []) =
        .error ⟨400, str "Malformed start line: " ++ (t1 ++ ' ' :: t2)⟩)
  ∧ (∀ (m : HTTPMethod) (p proto : Str), ' ' ∉ p → '\r' ∉ p → '\r' ∉ proto →
      from_bytes (encodeRequest m p proto [] []) = .ok ⟨m, p, proto, [], []⟩) := by
  refine ⟨?_, ?_, ?_⟩
  · intro tok hcr hsp
    have hsb : splitBody (tok ++ '\r' :: '\n' :: '\r' :: '\n' :: []) =
        some (tok, []) := by
      rw [splitBody_walk tok _ hcr, splitBody_crlfcrlf]
      simp
    have hcrlf : splitOnPair '\r' '\n' tok = [tok] := by
      have := splitCRLF_join [tok] (by simp) (by simpa using hcr)
      simpa [joinCRLF] using this
    simp only [from_bytes, hsb, hcrlf, breakOnChar_not_mem ' ' tok hsp]
  · intro t1 t2 hcr1 hsp1 hcr2 hsp2
    have hline_cr : '\r' ∉ t1 ++ ' ' :: t2 := by
      intro hm
      rcases List.mem_append.mp hm with h1 | h2
      · exact hcr1 h1
      · rcases (by simpa using h2 : '\r' = ' ' ∨ '\r' ∈ t2) with h3 | h3
        · exact absurd h3 (by decide)
        · exact hcr2 h3
    have hsb : splitBody ((t1 ++ ' ' :: t2) ++ '\r' :: '\n' :: '\r' :: '\n' :: []) =
        some (t1 ++ ' ' :: t2, []) := by
      rw [splitBody_walk _ _ hline_cr, splitBody_crlfcrlf]
      simp
    have hcrlf : splitOnPair '\r' '\n' (t1 ++ ' ' :: t2) = [t1 ++ ' ' :: t2] := by
      have := splitCRLF_join [t1 ++ ' ' :: t2] (by simp) (by simpa using hline_cr)
      simpa [joinCRLF] using this
    have hb1 : breakOnChar ' ' (t1 ++ ' ' :: t2) = some (t1, t2) :=
      breakOnChar_append ' ' t1 t2 hsp1
    have harr : t1 ++ ' ' :: t2 ++ '\r' :: '\n' :: '\r' :: '\n' :: [] =
        (t1 ++ ' ' :: t2) ++ '\r' :: '\n' :: '\r' :: '\n' :: [] := by
      simp
    rw [harr]
    simp only [from_bytes, hsb, hcrlf, hb1, breakOnChar_not_mem ' ' t2 hsp2]
  · intro m p proto hpsp hpcr hprcr
    have := from_bytes_encodeRequest m p proto [] [] hpsp hpcr hprcr
      (by simp) (by simp)
    simpa using this

/-- Witness for claim C6 at concrete start lines, including a protocol token
containing a space (a four-token start line that is accepted). -/
theorem claim_C6_witness :
    from_bytes (str "GET" ++ '\r' :: '\n' :: '\r' :: '\n' :: []) =
      .error ⟨400, str "Malformed start line: " ++ str "GET"⟩ ∧
    from_bytes (encodeRequest .GET (str "/") (str "HTTP/1.1 extra") [] []) =
      .ok ⟨.GET, str "/", str "HTTP/1.1 extra", [], []⟩ :=
  ⟨claim_C6.1 (str "GET") (by decide) (by decide),
    claim_C6.2.2 .GET (str "/") (str "HTTP/1.1 extra") (by decide) (by decide)
      (by decide)⟩

/-! ### Helper lemmas: all parse failures are 400 BadRequest -/

theorem parseHeaderLines_error_status (lines : List Str) :
    ∀ acc e, parseHeaderLines lines acc = .error e → e.status = 400 := by
  induction lines with
  | nil =>
    intro acc e h
    simp [parseHeaderLines] at h
  | cons l rest ih =>
    intro acc e h
    by_cases hl : l = []
    · simp [parseHeaderLines, hl] at h
    · simp only [parseHeaderLines, if_neg hl] at h
      cases hb : breakOnChar ':' l with
      | some kv =>
        rw [hb] at h
        exact ih _ e h
      | none =>
        rw [hb] at h
        simp only [Except.error.injEq] at h
        rw [← h]

theorem from_bytes_error_status (raw : Str) (e : HTTPException)
    (h : from_bytes raw = .error e) : e.status = 400 := by
  unfold from_bytes at h
  split at h <;> (try dsimp only at h) <;> repeat' split at h
  all_goals first
    | (injection h with h'; subst h';
        exact parseHeaderLines_error_status _ _ _ (by assumption))
    | (injection h with h'; subst h'; rfl)
    | simp at h

/-- Counterexample to claim C5: a parse failure (status 400) is sent with
`close_connection = false`, not `true` — the flag is still false when the
`HTTPException` handler runs and `400 >= 500` fails. -/
theorem claim_C5_counterexample :
    from_bytes (str "BAD\r\n\r\n") =
      .error ⟨400, str "Malformed start line: BAD"⟩ ∧
    (connectionCycle (str "BAD\r\n\r\n") (fun _ => .unexpected)).2 = false := by
  constructor
  · decide
  · rfl

/-- Claim C5 as amended: when request parsing fails, the synthesized error
Response is sent with `close_connection = false` (parse failures are 400
BadRequest, below the 500 threshold, and the client's Connection header has
not been read yet); when routing or a handler raises an HTTP error,
`close_connection` is true exactly when the client sent `Connection: close`
or the status is at or above 500; unexpected handler failures send a 500 and
always close. -/
theorem claim_C5 :
    (∀ (raw : Str) (dispatch : HTTPRequest → DispatchOutcome)
        (e : HTTPException), from_bytes raw = .error e →
      connectionCycle raw dispatch =
        (mkHTTPResponse e.status none (.ofStr e.message) none, false))
  ∧ (∀ (raw : Str) (dispatch : HTTPRequest → DispatchOutcome)
        (req : HTTPRequest) (e : HTTPException),
      from_bytes raw = .ok req → dispatch req = .httpError e →
      connectionCycle raw dispatch =
        (mkHTTPResponse e.status none (.ofStr e.message) none,
          should_close req || decide (500 ≤ e.status)))
  ∧ (∀ (raw : Str) (dispatch : HTTPRequest → DispatchOutcome)
        (req : HTTPRequest),
      from_bytes raw = .ok req → dispatch req = .unexpected →
      connectionCycle raw dispatch =
        (mkHTTPResponse 500 none (.ofStr (str "Internal Server Error")) none,
          true)) := by
  refine ⟨?_, ?_, ?_⟩
  · intro raw dispatch e h
    have h400 := from_bytes_error_status raw e h
    simp only [connectionCycle, h, h400]
    simp
  · intro raw dispatch req e hok hd
    simp only [connectionCycle, hok, hd]
  · intro raw dispatch req hok hd
    simp only [connectionCycle, hok, hd]

/-- Witness for claim C5: a concrete parse failure keeps the connection
open, and a concrete 404 handler failure on a request without
`Connection: close` also keeps it open. -/
theorem claim_C5_witness :
    connectionCycle (str "BAD\r\n\r\n") (fun _ => .unexpected) =
      (mkHTTPResponse 400 none (.ofStr (str "Malformed start line: BAD")) none,
        false) ∧
    connectionCycle (str "GET / HTTP/1.1\r\n\r\n")
        (fun _ => .httpError ⟨404, str "nope"⟩) =
      (mkHTTPResponse 404 none (.ofStr (str "nope")) none, false) := by
  constructor
  · exact claim_C5.1 (str "BAD\r\n\r\n") (fun _ => .unexpected)
      ⟨400, str "Malformed start line: BAD"⟩ (by decide)
  · exact claim_C5.2.1 (str "GET / HTTP/1.1\r\n\r\n")
      (fun _ => .httpError ⟨404, str "nope"⟩)
      ⟨.GET, str "/", str "HTTP/1.1", [], []⟩ ⟨404, str "nope"⟩ (by decide) rfl

/-- Counterexample to claim C7: 301 (with 302-304, 401, 408, 409, 429 and
501-505 alike) has no entry in the status-text table, so a 301 response
serializes with the generic "Unknown" text instead of a specific one. -/
theorem claim_C7_counterexample :
    STATUS_TEXT 301 = none ∧
    (mkHTTPResponse 301 none RespBody.noBody none).status_text =
      str "Unknown" := by
  decide

/-- Claim C7 as amended: the status-code/text table maps exactly the seven
codes 200, 201, 400, 403, 404, 405 and 500 to specific status texts; every
other status code serializes with the generic status text "Unknown" unless
the caller supplies explicit (non-empty) status text, in which case the
supplied text is used. -/
theorem claim_C7 :
    (∀ code : Nat, (STATUS_TEXT code).isSome = true ↔
      code = 200 ∨ code = 201 ∨ code = 400 ∨ code = 403 ∨ code = 404 ∨
        code = 405 ∨ code = 500)
  ∧ (∀ (code : Nat) (headers : Option (List (Str × Str))) (body : RespBody),
      STATUS_TEXT code = none →
      (mkHTTPResponse code headers body none).status_text = str "Unknown")
  ∧ (∀ (code : Nat) (headers : Option (List (Str × Str))) (body : RespBody)
        (t : Str), t ≠ [] →
      (mkHTTPResponse code headers body (some t)).status_text = t) := by
  refine ⟨?_, ?_, ?_⟩
  · intro code
    unfold STATUS_TEXT
    split_ifs with h1 h2 h3 h4 h5 h6 h7 <;> simp_all
  · intro code headers body h
    simp [mkHTTPResponse, h]
  · intro code headers body t ht
    simp [mkHTTPResponse, ht]

/-- Witness for claim C7: 302 falls back to "Unknown", and caller-supplied
text on an unmapped code is kept. -/
theorem claim_C7_witness :
    (mkHTTPResponse 302 none RespBody.noBody none).status_text =
      str "Unknown" ∧
    (mkHTTPResponse 302 none RespBody.noBody
      (some (str "Custom"))).status_text = str "Custom" :=
  ⟨claim_C7.2.1 302 none RespBody.noBody (by decide),
    claim_C7.2.2 302 none RespBody.noBody (str "Custom") (by decide)⟩

/-- Claim C9: when a Content-Length header is already supplied by the caller
under any letter-casing, the constructor leaves the header dict exactly as
supplied — nothing is computed or injected, whatever the supplied value, and
every other caller-supplied header is unchanged. -/
theorem claim_C9 (code : Nat) (headers : List (Str × Str)) (body : RespBody)
    (stext : Option Str)
    (h : hasKeyCI headers (str "content-length") = true) :
    (mkHTTPResponse code (some headers) body stext).headers = headers := by
  unfold mkHTTPResponse
  simp [h]

/-- Witness for claim C9: a mixed-case Content-Length of 999 on a two-byte
body is left untouched. -/
theorem claim_C9_witness :
    (mkHTTPResponse 200 [(str "content-LENGTH", str "999")]
        (RespBody.ofStr (str "ab")) none).headers =
      [(str "content-LENGTH", str "999")] :=
  claim_C9 200 [(str "content-LENGTH", str "999")]
    (RespBody.ofStr (str "ab")) none (by decide)

/-- Claim C2: a response constructed with a body present and no
Content-Length set (checked case-insensitively) carries a Content-Length
header equal to the byte length of the encoded body, the serialized bytes
are the header section followed by exactly that body, and the echo handler's
Content-Length is computed from the compressed body (compression happens
before construction). -/
theorem claim_C2 :
    (∀ (code : Nat) (headers : Option (List (Str × Str))) (body : RespBody)
        (stext : Option Str) (close : Bool), body ≠ RespBody.noBody →
      hasKeyCI (headers.getD []) (str "content-length") = false →
      dictGet (mkHTTPResponse code headers body stext).headers
          (str "Content-Length") =
        some (natToStr (encodeBody body).length) ∧
      (mkHTTPResponse code headers body stext).to_bytes close =
        toBytesHead (mkHTTPResponse code headers body stext) close ++
          encodeBody body)
  ∧ (∀ (compress : List Nat → List Nat) (req : HTTPRequest),
      str "gzip" ∈ (pySplitChar ','
        (get_header req (str "Accept-Encoding") [])).map pyStrip →
      dictGet (handle_echo compress req).headers (str "Content-Length") =
        some (natToStr
          (compress (utf8Encode
            (req.path.drop (str "/echo/").length))).length)) := by
  constructor
  · intro code headers body stext close hb hck
    refine ⟨mk_injects_CL code headers body stext hb hck, ?_⟩
    unfold HTTPResponse.to_bytes
    rw [mkHTTPResponse_body]
    by_cases hbe : encodeBody body = []
    · simp [hbe]
    · simp [hbe]
  · intro compress req h
    simp only [handle_echo, if_pos h]
    have := mk_injects_CL 200
      (some (dictSet [(str "Content-Type", str "text/plain")]
        (str "Content-Encoding") (str "gzip")))
      (.ofBytes (compress (utf8Encode (req.path.drop (str "/echo/").length))))
      none (by simp) (by decide)
    simpa using this

/-- Witness for claim C2: Content-Length 3 for the three-byte body "abc",
and Content-Length 4 for a compressed echo body of four bytes. -/
theorem claim_C2_witness :
    dictGet (mkHTTPResponse 200 none (RespBody.ofStr (str "abc")) none).headers
        (str "Content-Length") = some (natToStr 3) ∧
    dictGet (handle_echo (fun b => 0 :: b)
        ⟨.GET, str "/echo/abc", str "HTTP/1.1",
          [(str "accept-encoding", str "gzip")], []⟩).headers
        (str "Content-Length") = some (natToStr 4) :=
  ⟨(claim_C2.1 200 none (RespBody.ofStr (str "abc")) none false (by simp)
      (by decide)).1,
    claim_C2.2 (fun b => 0 :: b)
      ⟨.GET, str "/echo/abc", str "HTTP/1.1",
        [(str "accept-encoding", str "gzip")], []⟩ (by decide)⟩

/-- Claim C1: for every file request with a configured root directory, if
the relative path resolved against the root by absolute-path
canonicalization does not have the canonical root as a prefix, the handler
fails Forbidden (403); the check runs on the canonicalized path, so the
`..`-based traversal `/files/../../etc/passwd` is rejected. -/
theorem claim_C1 :
    (∀ (cwd dir reqPath : Str), dir ≠ [] →
      (pyAbspath cwd dir).isPrefixOf
        (pyAbspath cwd (pyJoin dir
          (reqPath.drop (str "/files/").length))) = false →
      filePathCheck cwd (some dir) reqPath =
        .error ⟨403, str "Access denied to file path."⟩)
  ∧ filePathCheck (str "/") (some (str "/srv/data"))
      (str "/files/../../etc/passwd") =
      .error ⟨403, str "Access denied to file path."⟩ := by
  constructor
  · intro cwd dir reqPath hdir hpfx
    unfold filePathCheck
    simp [hdir, hpfx]
  · decide

/-- Witness for claim C1: the general Forbidden branch applied at the
concrete traversal request `/files/../../etc/passwd` under root
`/srv/data`. -/
theorem claim_C1_witness :
    filePathCheck (str "/") (some (str "/srv/data"))
      (str "/files/../a/../../etc/shadow") =
      .error ⟨403, str "Access denied to file path."⟩ :=
  claim_C1.1 (str "/") (str "/srv/data") (str "/files/../a/../../etc/shadow")
    (by decide) (by decide)

/-- Claim C10: the Forbidden check of the file handlers is a plain
string-prefix test on the canonicalized absolute paths — Forbidden is raised
exactly when the resolved absolute path does not start, as a string, with
the absolute root; consequently the sibling-directory path
`/srv/data-old/f` (reached from root `/srv/data` via `../data-old/f`)
passes the check and is handed on to be served. -/
theorem claim_C10 :
    (∀ (cwd dir reqPath : Str), dir ≠ [] →
      (filePathCheck cwd (some dir) reqPath =
          .error ⟨403, str "Access denied to file path."⟩ ↔
        (pyAbspath cwd dir).isPrefixOf
          (pyAbspath cwd (pyJoin dir
            (reqPath.drop (str "/files/").length))) = false))
  ∧ filePathCheck (str "/") (some (str "/srv/data"))
      (str "/files/../data-old/f") = .ok (str "/srv/data-old/f") := by
  constructor
  · intro cwd dir reqPath hdir
    unfold filePathCheck
    constructor
    · intro h
      by_cases hpfx : (pyAbspath cwd dir).isPrefixOf
          (pyAbspath cwd (pyJoin dir
            (reqPath.drop (str "/files/").length))) = false
      · exact hpfx
      · simp [hdir, hpfx] at h
    · intro hpfx
      simp [hdir, hpfx]
  · decide

/-- Witness for claim C10: the prefix-test characterization applied at the
sibling-escape input, where the check passes. -/
theorem claim_C10_witness :
    filePathCheck (str "/") (some (str "/srv/data"))
        (str "/files/../data-old/g") =
        .error ⟨403, str "Access denied to file path."⟩ ↔
      (pyAbspath (str "/") (str "/srv/data")).isPrefixOf
        (pyAbspath (str "/") (pyJoin (str "/srv/data")
          ((str "/files/../data-old/g").drop (str "/files/").length))) =
        false :=
  claim_C10.1 (str "/") (str "/srv/data") (str "/files/../data-old/g")
    (by decide)

/-! ### Helper lemmas: router scan -/

theorem findHandlerAux_found {H : Type} (m p : Str) (dflt : H) :
    ∀ (routes : List (Route H)) (allowed : List Str) (pm : Bool)
      (r : Route H),
    routes.find? (fun rt => rt.pattern p && decide (m = rt.method)) = some r →
    findHandlerAux m p dflt routes allowed pm = .ok r.handler := by
  intro routes
  induction routes with
  | nil =>
    intro allowed pm r h
    simp at h
  | cons rt rest ih =>
    intro allowed pm r h
    by_cases hpred : (rt.pattern p && decide (m = rt.method)) = true
    · have hfind : (rt :: rest).find?
          (fun rt => rt.pattern p && decide (m = rt.method)) = some rt := by
        simp [List.find?_cons, hpred]
      rw [hfind] at h
      have hr : rt = r := by simpa using h
      have hboth : rt.pattern p = true ∧ m = rt.method := by
        simpa using hpred
      have hpat := hboth.1
      have hmeth := hboth.2
      subst hr
      simp [findHandlerAux, hpat, hmeth]
    · have hpredf : (rt.pattern p && decide (m = rt.method)) = false :=
        Bool.eq_false_iff.mpr hpred
      have hfind : (rt :: rest).find?
          (fun rt => rt.pattern p && decide (m = rt.method)) =
          rest.find? (fun rt => rt.pattern p && decide (m = rt.method)) := by
        simp [List.find?_cons, hpredf]
      rw [hfind] at h
      by_cases hpat : rt.pattern p = true
      · have hmeth : ¬(m = rt.method) := by
          intro hc
          exact hpred (by simp [hpat, hc])
        simp only [findHandlerAux, if_pos hpat, if_neg hmeth]
        exact ih _ _ r h
      · simp only [findHandlerAux, if_neg hpat]
        exact ih _ _ r h

theorem findHandlerAux_notfound {H : Type} (m p : Str) (dflt : H) :
    ∀ (routes : List (Route H)) (allowed : List Str) (pm : Bool),
    routes.find? (fun rt => rt.pattern p && decide (m = rt.method)) = none →
    findHandlerAux m p dflt routes allowed pm =
      (if (pm || !(routes.filter (fun rt => rt.pattern p)).isEmpty) = true then
        .error (sortStr (List.foldl (fun acc rt => setAdd acc rt.method)
          allowed (routes.filter (fun rt => rt.pattern p))))
      else .ok dflt) := by
  intro routes
  induction routes with
  | nil =>
    intro allowed pm h
    cases pm <;> simp [findHandlerAux]
  | cons rt rest ih =>
    intro allowed pm h
    have hpred : ¬((rt.pattern p && decide (m = rt.method)) = true) := by
      intro hc
      exact (List.find?_eq_none.mp h rt (by simp)) hc
    have hrest : rest.find?
        (fun rt => rt.pattern p && decide (m = rt.method)) = none :=
      List.find?_eq_none.mpr
        (fun x hx => List.find?_eq_none.mp h x (List.mem_cons_of_mem rt hx))
    by_cases hpat : rt.pattern p = true
    · have hmeth : ¬(m = rt.method) := by
        intro hc
        exact hpred (by simp [hpat, hc])
      simp only [findHandlerAux, if_pos hpat, if_neg hmeth]
      rw [ih (setAdd allowed rt.method) true hrest]
      simp [List.filter_cons, hpat]
    · have hpatf : rt.pattern p = false := Bool.eq_false_iff.mpr hpat
      simp only [findHandlerAux, if_neg hpat]
      rw [ih allowed pm hrest]
      simp [List.filter_cons, hpatf]

/-- Claim C3: `Router.find_handler` scans routes in registration order; the
first route whose whole-path pattern matches the path and whose method
equals the request method wins and its handler is returned immediately; if
some pattern matched but no method did, resolution fails Method-Not-Allowed
carrying the sorted deduplicated set of all methods registered against
matching patterns; if no pattern matched at all, the default not-found
fallback handler is returned. -/
theorem claim_C3 {H : Type} (routes : List (Route H)) (dflt : H)
    (m p : Str) :
    (∀ r : Route H,
      routes.find? (fun rt => rt.pattern p && decide (m = rt.method)) =
        some r →
      find_handler routes dflt m p = .ok r.handler)
  ∧ (routes.find? (fun rt => rt.pattern p && decide (m = rt.method)) =
        none →
      (routes.filter (fun rt => rt.pattern p) = [] →
        find_handler routes dflt m p = .ok dflt)
      ∧ (∀ r0 rs, routes.filter (fun rt => rt.pattern p) = r0 :: rs →
        find_handler routes dflt m p = .error (sortStr
          (List.foldl (fun acc rt => setAdd acc rt.method) []
            (routes.filter (fun rt => rt.pattern p)))))) := by
  constructor
  · intro r h
    exact findHandlerAux_found m p dflt routes [] false r h
  · intro h
    constructor
    · intro hfil
      rw [find_handler, findHandlerAux_notfound m p dflt routes [] false h]
      simp [hfil]
    · intro r0 rs hfil
      rw [find_handler, findHandlerAux_notfound m p dflt routes [] false h]
      simp [hfil]

/-- Witness for claim C3 on a concrete route table: a PUT on a path bound
to GET and POST routes yields the Method-Not-Allowed error carrying the
sorted accumulated method set. -/
theorem claim_C3_witness :
    find_handler
      ([⟨str "GET", fun q => (str "/files/").isPrefixOf q, 1⟩,
        ⟨str "POST", fun q => (str "/files/").isPrefixOf q, 2⟩] :
          List (Route Nat))
      0 (str "PUT") (str "/files/x") =
      .error (sortStr (List.foldl (fun acc rt => setAdd acc rt.method) []
        (List.filter (fun rt => rt.pattern (str "/files/x"))
          ([⟨str "GET", fun q => (str "/files/").isPrefixOf q, 1⟩,
            ⟨str "POST", fun q => (str "/files/").isPrefixOf q, 2⟩] :
              List (Route Nat))))) :=
  ((claim_C3
    ([⟨str "GET", fun q => (str "/files/").isPrefixOf q, 1⟩,
      ⟨str "POST", fun q => (str "/files/").isPrefixOf q, 2⟩] :
        List (Route Nat))
    0 (str "PUT") (str "/files/x")).2 rfl).2
    ⟨str "GET", fun q => (str "/files/").isPrefixOf q, 1⟩
    [⟨str "POST", fun q => (str "/files/").isPrefixOf q, 2⟩] rfl

/-- The injected-header form of a constructed response. -/
theorem mk_headers_inject (c : Nat) (hdrs : List (Str × Str)) (b : RespBody)
    (t : Option Str) (hb : b ≠ RespBody.noBody)
    (hck : hasKeyCI hdrs (str "content-length") = false) :
    (mkHTTPResponse c (some hdrs) b t).headers =
      dictSet hdrs (str "Content-Length")
        (natToStr (encodeBody b).length) := by
  unfold mkHTTPResponse
  simp [if_pos (And.intro hb hck)]

/-- Counterexample to claim C4: the echo handler of `app/main.py` (cited as
a source of the claim) splits Accept-Encoding on the exact two-character
separator ", ", so for the value "gzip,deflate" it does not compress and
adds no Content-Encoding header even though the comma-split
whitespace-trimmed token list contains "gzip". -/
theorem claim_C4_counterexample :
    dictGet (main_handle_echo (fun b => b) (str "/echo/abc")
        [(str "Accept-Encoding", str "gzip,deflate")]).2.2.1
        (str "Content-Encoding") = none ∧
    str "gzip" ∈ (pySplitChar ',' (str "gzip,deflate")).map pyStrip := by
  decide

/-- Claim C4 as amended: the echo handler of `app/handlers.py` compresses
iff the Accept-Encoding value split on commas with whitespace-trimmed
tokens contains the exact token "gzip" (so "gzip, deflate" compresses and
"gzipx" does not), adding Content-Encoding: gzip and a Content-Length equal
to the compressed byte length; the legacy echo handler of `app/main.py`
instead splits on the exact separator ", " with no trimming (and treats a
missing or empty header as no tokens), so it compresses iff that split
yields the exact token "gzip". -/
theorem claim_C4 :
    (∀ (compress : List Nat → List Nat) (req : HTTPRequest),
      if str "gzip" ∈ (pySplitChar ','
          (get_header req (str "Accept-Encoding") [])).map pyStrip then
        (handle_echo compress req).body =
          .ofBytes (compress (utf8Encode
            (req.path.drop (str "/echo/").length))) ∧
        dictGet (handle_echo compress req).headers
          (str "Content-Encoding") = some (str "gzip") ∧
        dictGet (handle_echo compress req).headers (str "Content-Length") =
          some (natToStr (compress (utf8Encode
            (req.path.drop (str "/echo/").length))).length)
      else
        (handle_echo compress req).body =
          .ofBytes (utf8Encode (req.path.drop (str "/echo/").length)) ∧
        dictGet (handle_echo compress req).headers
          (str "Content-Encoding") = none ∧
        dictGet (handle_echo compress req).headers (str "Content-Length") =
          some (natToStr (utf8Encode
            (req.path.drop (str "/echo/").length)).length))
  ∧ (∀ (compress : List Nat → List Nat) (path : Str)
        (headers : List (Str × Str)),
      if str "gzip" ∈ (match dictGet headers (str "Accept-Encoding") with
          | some v => if v = [] then [] else splitOnPair ',' ' ' v
          | none => []) then
        (main_handle_echo compress path headers).2.2.2 =
          compress (utf8Encode (path.drop (str "/echo/").length)) ∧
        dictGet (main_handle_echo compress path headers).2.2.1
          (str "Content-Encoding") = some (str "gzip") ∧
        dictGet (main_handle_echo compress path headers).2.2.1
          (str "Content-Length") =
          some (natToStr (compress (utf8Encode
            (path.drop (str "/echo/").length))).length)
      else
        (main_handle_echo compress path headers).2.2.2 =
          utf8Encode (path.drop (str "/echo/").length) ∧
        dictGet (main_handle_echo compress path headers).2.2.1
          (str "Content-Encoding") = none ∧
        dictGet (main_handle_echo compress path headers).2.2.1
          (str "Content-Length") =
          some (natToStr (utf8Encode
            (path.drop (str "/echo/").length)).length)) := by
  constructor
  · intro compress req
    by_cases hc : str "gzip" ∈ (pySplitChar ','
        (get_header req (str "Accept-Encoding") [])).map pyStrip
    · rw [if_pos hc]
      simp only [handle_echo, if_pos hc]
      refine ⟨by trivial, ?_, ?_⟩
      · rw [mk_headers_inject _ _ _ _ (by simp) (by decide),
          dictGet_dictSet_ne _ _ _ _ (by decide)]
        decide
      · rw [mk_headers_inject _ _ _ _ (by simp) (by decide)]
        exact dictGet_dictSet_self _ _ _
    · rw [if_neg hc]
      simp only [handle_echo, if_neg hc]
      refine ⟨by trivial, ?_, ?_⟩
      · rw [mk_headers_inject _ _ _ _ (by simp) (by decide),
          dictGet_dictSet_ne _ _ _ _ (by decide)]
        decide
      · rw [mk_headers_inject _ _ _ _ (by simp) (by decide)]
        exact dictGet_dictSet_self _ _ _
  · intro compress path headers
    by_cases hc : str "gzip" ∈ (match dictGet headers (str "Accept-Encoding") with
        | some v => if v = [] then [] else splitOnPair ',' ' ' v
        | none => [])
    · rw [if_pos hc]
      simp only [main_handle_echo, if_pos hc]
      refine ⟨by trivial, ?_, ?_⟩
      · rw [dictGet_dictSet_ne _ _ _ _ (by decide),
          dictGet_dictSet_ne _ _ _ _ (by decide)]
        decide
      · exact dictGet_dictSet_self _ _ _
    · rw [if_neg hc]
      simp only [main_handle_echo, if_neg hc]
      refine ⟨by trivial, ?_, ?_⟩
      · rw [dictGet_dictSet_ne _ _ _ _ (by decide),
          dictGet_dictSet_ne _ _ _ _ (by decide)]
        decide
      · exact dictGet_dictSet_self _ _ _

/-- Witness for claim C4: "gzip, deflate" compresses in the handlers-module
echo, while "gzipx" does not. -/
theorem claim_C4_witness :
    (handle_echo (fun b => 0 :: b)
        ⟨.GET, str "/echo/abc", str "HTTP/1.1",
          [(str "accept-encoding", str "gzip, deflate")], []⟩).body =
      .ofBytes (0 :: utf8Encode (str "abc")) ∧
    dictGet (handle_echo (fun b => 0 :: b)
        ⟨.GET, str "/echo/abc", str "HTTP/1.1",
          [(str "accept-encoding", str "gzipx")], []⟩).headers
      (str "Content-Encoding") = none := by
  constructor
  · have h := claim_C4.1 (fun b => 0 :: b)
      ⟨.GET, str "/echo/abc", str "HTTP/1.1",
        [(str "accept-encoding", str "gzip, deflate")], []⟩
    rw [if_pos (by decide)] at h
    exact h.1
  · have h := claim_C4.1 (fun b => 0 :: b)
      ⟨.GET, str "/echo/abc", str "HTTP/1.1",
        [(str "accept-encoding", str "gzipx")], []⟩
    rw [if_neg (by decide)] at h
    exact h.2.1
